import Mathlib

/-!
# Verification of the dashboard variables resolution engine

Shallow embedding of `src/web/src/components/dashboards/VariablesValueSelector.vue`
(the variable dependency resolution engine of the OpenObserve dashboard UI).

JavaScript values relevant to the engine are modelled as follows:
* a variable's `value` is either a scalar (a string, or `null`/`undefined`,
  both collapsed to `Option.none`) or an array of such scalars (`VarValue`);
* JS truthiness on these values is `jsTruthy` / `truthyS` below
  (`null`, `undefined` and `""` are falsy, arrays and non-empty strings truthy);
* `String.prototype.replace` with a string pattern replaces only the first
  occurrence (`replaceFirst`), and `String.prototype.includes` is `strIncludes`;
* the asynchronous executor of `loadSingleVariableDataByIndex` is embedded as a
  sequential function: its two `await` points (query-building and the
  field-values fetch) are supplied as parameters (`qc0`, the query context
  produced by the external `addLabelsToSQlQuery` helper, and a `FetchOutcome`
  oracle for `streamService.fieldValues`).  The promise's first-settle-wins
  discipline is threaded explicitly (`settled`), since `resolve(...)` after the
  first settle is a no-op while the executor body keeps running.

External helpers that are not part of this repository snapshot
(`isInvalidDate`, `buildVariablesDependencyGraph`, `escapeSingleQuotes`,
`b64EncodeUnicode`, `addLabelsToSQlQuery`) are abstracted: date validity is a
pair of booleans in the context, the dependency graph is an explicit
parents/children map, and the query context is an input string.
-/

set_option maxRecDepth 8192

namespace VarSelector

/-- The five variable types of the engine (`item.type` strings in the source). -/
inductive VarType
  | queryValues
  | constant
  | textbox
  | custom
  | dynamicFilters
deriving DecidableEq, Repr, Inhabited

/-- A JS value held in `variable.value`: a scalar (string, or null/undefined as
`Option.none`) or an array of scalars. -/
inductive VarValue
  | scalar (s : Option String)
  | arr (xs : List (Option String))
deriving DecidableEq, Repr, Inhabited

/-- One entry of `variable.options`: `{label, value}` pairs, with the
`selected` flag used by custom variables. -/
structure VOption where
  label : String
  value : String
  selected : Bool := false
deriving DecidableEq, Repr, Inhabited

/-- JS truthiness of a `VarValue` (`null`, `undefined`, `""` falsy; arrays
truthy, even empty ones). -/
def jsTruthy : VarValue → Bool
  | .scalar none => false
  | .scalar (some s) => s ≠ ""
  | .arr _ => true

/-- JS truthiness of an optional string (`undefined`/`null`/`""` falsy). -/
def truthyS : Option String → Bool
  | none => false
  | some s => s ≠ ""

/-- `Array.isArray(x) ? x : [x]` on a `VarValue`. -/
def toListVal : VarValue → List (Option String)
  | .arr xs => xs
  | .scalar s => [s]

/-- The per-variable record of `variablesData.values`.  Fields not consulted by
the engine (`label`, `hideOnDashboard`, stream/size parts of `query_data` that
only feed the fetch request) are omitted; `query_data.field` is kept because the
response post-processing selects the row matching it. -/
structure Variable where
  name : String
  vtype : VarType
  multiSelect : Bool := false
  value : VarValue := .scalar none
  options : List VOption := []
  isLoading : Bool := false
  isVariableLoadingPending : Bool := true
  selectAllValueForMultiSelect : String := ""
  customMultiSelectValue : List String := []
  queryDataField : String := ""
deriving DecidableEq, Repr, Inhabited

/--
`handleQueryValuesLogic(currentVariable, oldVariableSelectedValues)` from the
source (lines 305–372), as a function from the variable and the old selected
values to the updated variable.  The JS code throws a `TypeError`
(`currentVariable.options[0].value` on an empty list) in the multi-select
default branch when `options` is empty; that is modelled by returning `none`
(the surrounding `try`/`catch` of the query_values case catches it).
-/
def handleQueryValuesLogic (v : Variable) (old : List (Option String)) :
    Option Variable :=
  let optionsValues := v.options.map (·.value)
  if v.multiSelect then
    let selectedValues :=
      (v.options.filter (fun o => old.contains (some o.value))).map (·.value)
    if selectedValues.length > 0 then
      some { v with value := .arr (selectedValues.map some) }
    else
      if v.selectAllValueForMultiSelect = "custom" then
        let kept := optionsValues.filter
          (fun x => v.customMultiSelectValue.contains x)
        some { v with value := .arr (kept.map some) }
      else if v.selectAllValueForMultiSelect = "all" then
        some { v with value := .arr (optionsValues.map some) }
      else
        match v.options with
        | [] => none
        | o :: _ => some { v with value := .arr [some o.value] }
  else
    let oldValue : Option String :=
      match old.head?.join with
      | none => none
      | some h => (v.options.find? (fun o => o.value = h)).map (·.value)
    if truthyS oldValue then
      some { v with value := .scalar oldValue }
    else if v.options.length > 0 then
      if v.selectAllValueForMultiSelect = "custom" then
        let customValue : Option VOption :=
          match v.customMultiSelectValue.head? with
          | none => none
          | some h => v.options.find? (fun o => o.value = h)
        let picked := (customValue.map (·.value)).getD v.options.headI.value
        some { v with value := .scalar (some picked) }
      else
        some { v with value := .scalar (some v.options.headI.value) }
    else
      some { v with value := .scalar none }

/--
`handleCustomVariablesLogic(currentVariable, oldVariableSelectedValues)` from
the source (lines 374–428).  The multi-select fallback uses the options'
`selected` flags (not `selectAllValueForMultiSelect`), and on an empty options
list the optional chaining `[currentVariable?.options?.[0]?.value]` yields
`[undefined]`; no path throws.
-/
def handleCustomVariablesLogic (v : Variable) (old : List (Option String)) :
    Variable :=
  let selectedOptionsValues :=
    (v.options.filter (·.selected)).map (·.value)
  if v.multiSelect then
    let selectedValues :=
      (v.options.filter (fun o => old.contains (some o.value))).map (·.value)
    if selectedValues.length > 0 then
      { v with value := .arr (selectedValues.map some) }
    else
      if selectedOptionsValues.length > 0 then
        { v with value := .arr (selectedOptionsValues.map some) }
      else
        { v with value := .arr [(v.options.head?).map (·.value)] }
  else
    let oldValue : Option String :=
      match old.head?.join with
      | none => none
      | some h => (v.options.find? (fun o => o.value = h)).map (·.value)
    if truthyS oldValue then
      { v with value := .scalar oldValue }
    else if v.options.length > 0 then
      if selectedOptionsValues.length > 0 then
        { v with value := .scalar selectedOptionsValues.head? }
      else
        { v with value := .scalar (some v.options.headI.value) }
    else
      { v with value := .scalar none }

/-- Split a character list around the first occurrence of `pat` (nonempty in
all uses): `none` when `pat` does not occur. -/
def splitFirstChars : List Char → List Char → Option (List Char × List Char)
  | [], _ => none
  | c :: cs, pat =>
    if pat.isPrefixOf (c :: cs) then some ([], (c :: cs).drop pat.length)
    else match splitFirstChars cs pat with
         | none => none
         | some (a, b) => some (c :: a, b)

/-- Split a string around the first occurrence of `pat` (JS
`String.prototype.indexOf` discipline). -/
def splitFirst (s pat : String) : Option (String × String) :=
  (splitFirstChars s.data pat.data).map (fun p => (String.mk p.1, String.mk p.2))

/-- JS `String.prototype.replace` with a string pattern: replaces only the
first occurrence. -/
def replaceFirst (s pat rep : String) : String :=
  match splitFirst s pat with
  | none => s
  | some (a, b) => a ++ rep ++ b

/-- JS `String.prototype.includes`. -/
def strIncludes (s pat : String) : Bool :=
  (splitFirst s pat).isSome

/-- Escape every single quote in a character list. -/
def escapeChars : List Char → List Char
  | [] => []
  | c :: cs =>
    if c = '\'' then '\\' :: '\'' :: escapeChars cs else c :: escapeChars cs

/-- Modelled from the spec: the external `escapeSingleQuotes` helper
(`utils/zincutils`, not under `src/`); the exact escaping is irrelevant to the
claims, only that array elements are individually quoted. -/
def escapeSingleQuotes (s : String) : String :=
  String.mk (escapeChars s.data)

/-- JS string coercion of a scalar as used by `String.prototype.replace`
(`null`/`undefined` both stringify to a placeholder word). -/
def jsStr : Option String → String
  | some s => s
  | none => "null"

/-- One node of the dependency graph produced by the external
`buildVariablesDependencyGraph` (modelled from the spec: parent and child
adjacency derived from `$name` references). -/
structure DepNode where
  parentVariables : List String := []
  childVariables : List String := []
deriving DecidableEq, Repr, Inhabited

/-- Ambient inputs of the engine: validity of the two time-range instants
(the results of the two external `isInvalidDate` checks, negated) and the
dependency graph. -/
structure Ctx where
  startTimeValid : Bool
  endTimeValid : Bool
  graph : String → DepNode

/-- The combined time-range guard
`!(isInvalidDate(start_time) || isInvalidDate(end_time))`. -/
def Ctx.dateOK (c : Ctx) : Bool :=
  c.startTimeValid && c.endTimeValid

/-- A concrete time range: each instant is either a well-formed epoch value or
malformed/missing (`none`). -/
structure TimeRange where
  startTime : Option Int := none
  endTime : Option Int := none
deriving DecidableEq, Repr

/-- Modelled from the spec: the external per-instant `isInvalidDate` check
(`utils/date`, not under `src/`).  Spec §6 says "invalid/missing halts
resolution"; the check is a unary predicate applied to ONE instant (source
lines 458–459 and 759–760 call it separately on `start_time` and `end_time`),
so it can flag a malformed or missing instant but, being unary, cannot depend
on the ordering of the pair. -/
def isInvalidDate (d : Option Int) : Bool :=
  d.isNone

/-- The ambient context induced by a concrete time range: the two validity
booleans are exactly the negated per-instant `isInvalidDate` results, as in
the source's guards. -/
def ctxOfTimeRange (tr : TimeRange) (g : String → DepNode) : Ctx :=
  { startTimeValid := !(isInvalidDate tr.startTime),
    endTimeValid := !(isInvalidDate tr.endTime),
    graph := g }

/-- Both instants are well-formed but the end lies before the start. -/
def timeRangeEndBeforeStart (tr : TimeRange) : Bool :=
  match tr.startTime, tr.endTime with
  | some s, some e => e < s
  | _, _ => false

/-- Invalidity of a time range in the CLAIM's words ("e.g., end_time before
start_time, or either instant malformed"): either instant malformed/missing,
or a well-formed end before a well-formed start.  Defined from the claim for
comparison with the code's guard, which tests only the first two disjuncts. -/
def timeRangeInvalidClaim (tr : TimeRange) : Bool :=
  isInvalidDate tr.startTime || isInvalidDate tr.endTime ||
    timeRangeEndBeforeStart tr

/-- The component's mutable state: the reactive `variablesData` record plus the
two module-level maps (`oldVariablesData` and the names having a live reject
handle in `currentlyExecutingPromises`). -/
structure EngineState where
  isVariablesLoading : Bool := false
  values : List Variable := []
  oldData : List (String × VarValue) := []
  promises : List String := []
deriving DecidableEq, Repr, Inhabited

/-- Read `oldVariablesData[n]` (`none` = key absent / undefined). -/
def oldLookup (od : List (String × VarValue)) (n : String) : Option VarValue :=
  (od.find? (fun p => p.1 = n)).map (·.2)

/-- Write `oldVariablesData[n] = v` (update in place, append when new). -/
def oldInsert : List (String × VarValue) → String → VarValue →
    List (String × VarValue)
  | [], n, v => [(n, v)]
  | p :: ps, n, v =>
    if p.1 = n then (n, v) :: ps else p :: oldInsert ps n v

/-- One row of the field-values response
(`{field, values: [{zo_sql_key}]}`; a key is `none` when null/undefined). -/
structure FetchRow where
  field : String
  values : List (Option String)
deriving DecidableEq, Repr

/-- Outcome of the `streamService.fieldValues` call: a response or a rejection
(network/backend failure). -/
inductive FetchOutcome
  | ok (hits : List FetchRow)
  | err
deriving DecidableEq, Repr

/-- Post-processing of a non-empty response (source lines 566–580): pick the
row whose `field` matches the variable's query field (a missing row makes the
JS dereference throw, modelled as `none`), keep values whose key is truthy or
the empty string, and map to label/value pairs with `&lt;blank&gt;` for the
empty key. -/
def mapHits (hits : List FetchRow) (field : String) : Option (List VOption) :=
  match hits.find? (fun r => r.field = field) with
  | none => none
  | some row =>
    some ((row.values.filter (fun k => k.isSome)).map (fun k =>
      let s := k.getD ""
      { label := if s ≠ "" then s else "&lt;blank&gt;", value := s,
        selected := false }))

/-- Accumulator of the placeholder-substitution loop (source lines 508–542):
the live query context, the current variable (the loop mutates its flags), and
the promise's first settle, if any (`resolve(false)` inside the loop settles
the promise but does not stop the executor). -/
structure LoopState where
  qc : String
  cur : Variable
  settled : Option Bool
deriving DecidableEq, Repr

/-- One iteration of the substitution loop.  `selfIdx` is the index of the
variable being loaded: the loop iterates over the live array, so at that
position it sees the accumulator's current variable (whose `isLoading` was just
set).  A loaded variable's value is substituted (arrays as a quoted
comma-separated list replacing `'$name'`, scalars replacing `$name`); for a
not-loaded variable whose token still occurs, the current variable is put back
to pending and the promise is resolved with `false` — with no `return`, so the
loop and the executor continue. -/
def substStep (selfIdx : Nat) (acc : LoopState) (pw : Nat × Variable) :
    LoopState :=
  let w := if pw.1 = selfIdx then acc.cur else pw.2
  if w.isLoading = false && w.isVariableLoadingPending = false then
    match w.value with
    | .arr xs =>
      let arrayValues := String.intercalate ", "
        (xs.map (fun x => "'" ++ escapeSingleQuotes (jsStr x) ++ "'"))
      { acc with qc := replaceFirst acc.qc ("'$" ++ w.name ++ "'") arrayValues }
    | .scalar s =>
      { acc with qc := replaceFirst acc.qc ("$" ++ w.name) (jsStr s) }
  else if strIncludes acc.qc ("$" ++ w.name) then
    { acc with
        cur := { acc.cur with isLoading := false,
                              isVariableLoadingPending := true },
        settled := match acc.settled with
                   | some b => some b
                   | none => some false }
  else acc

/-- The whole substitution loop over the variable list. -/
def substLoop (selfIdx : Nat) (qc0 : String) (cur : Variable)
    (values : List Variable) : LoopState :=
  values.enum.foldl (substStep selfIdx) { qc := qc0, cur := cur, settled := none }

/-- The continuation of the query_values executor after the fetch `await`
(source lines 564–635), applied to the current variable unconditionally — also
when the promise was already settled or rejected.  On a non-empty response the
options are overwritten and the reconciliation handler runs (the guard at lines
593–596, `old !== undefined || old !== null`, is a tautology, so the handler
always runs); a handler throw or a missing field row is caught and degrades to
`value = null`, `options = []`, as does a rejected fetch; an empty response
yields the multi-select-aware empty value. -/
def queryValuesCompletion (v : Variable) (fetch : FetchOutcome)
    (old : Option VarValue) : Variable :=
  match fetch with
  | .err => { v with value := .scalar none, options := [] }
  | .ok hits =>
    if hits.length ≠ 0 then
      match mapHits hits v.queryDataField with
      | none => { v with value := .scalar none, options := [] }
      | some opts =>
        let v1 := { v with options := opts }
        let oldSel : List (Option String) :=
          match old with
          | some ov => if jsTruthy ov then toListVal ov else []
          | none => []
        if v1.vtype = .custom then
          handleCustomVariablesLogic v1 oldSel
        else
          match handleQueryValuesLogic v1 oldSel with
          | some v2 => v2
          | none => { v1 with value := .scalar none, options := [] }
    else
      { v with
          value := if v.multiSelect then .arr [] else .scalar none,
          options := [] }

/-- Indices of the variables whose name occurs in the given variable's
`childVariables` list (source lines 714–726). -/
def childIndices (ctx : Ctx) (values : List Variable) (name : String) :
    List Nat :=
  (values.enum.filter
    (fun p => (ctx.graph name).childVariables.contains p.2.name)).map (·.1)

/-- The fulfilled branch of the promise's `.then` handler (source lines
684–736): clear the stored reject handle, record the resolved value into
`oldVariablesData`, clear the loading/pending flags, recompute
`isVariablesLoading`, and spawn a load attempt for every child index. -/
def commitThen (ctx : Ctx) (st : EngineState) (idx : Nat) :
    EngineState × List Nat :=
  match st.values.get? idx with
  | none => (st, [])
  | some v =>
    let promises := st.promises.erase v.name
    let oldData := oldInsert st.oldData v.name v.value
    let v' := { v with isLoading := false, isVariableLoadingPending := false }
    let values := st.values.set idx v'
    let flag := values.any (fun w => w.isLoading || w.isVariableLoadingPending)
    ({ isVariablesLoading := flag, values := values, oldData := oldData,
       promises := promises }, childIndices ctx values v.name)

/-- Result of one invocation of `loadSingleVariableDataByIndex`: the state
after the executor and the settled handler ran, the promise's settle value,
whether the field-values fetch was issued, whether `isLoading` was set
(`loadBegan`), the child indices for which the `.then` handler spawned new
attempts, whether a previously stored reject handle was invoked, and whether
this attempt's own reject handle was stored. -/
structure AttemptOut where
  st : EngineState
  settled : Bool
  fetchIssued : Bool
  loadBegan : Bool
  spawnedChildren : List Nat
  cancelledPrev : Bool
  handleInstalled : Bool
deriving DecidableEq, Repr

/-- `loadSingleVariableDataByIndex(variableIndex)` (source lines 431–755), for
one attempt that is not externally cancelled: the executor runs to its end,
the promise keeps its first settle value, and the `.then` handler commits only
when that value is truthy.  `qc0` is the query context returned by the awaited
external `addLabelsToSQlQuery`, and `fetch` the outcome of the field-values
request (the source's base64 encoding of the query feeds only that request, so
it is not modelled).  In the source's `custom` case the inner
`type === "custom"` test is always true, so the handler call is embedded
directly. -/
def loadSingleVariableDataByIndex (ctx : Ctx) (qc0 : String)
    (fetch : FetchOutcome) (st : EngineState) (variableIndex : Int) :
    AttemptOut :=
  if variableIndex < 0 then
    { st := st, settled := false, fetchIssued := false, loadBegan := false,
      spawnedChildren := [], cancelledPrev := false, handleInstalled := false }
  else
    match st.values.get? variableIndex.toNat with
    | none =>
      { st := st, settled := false, fetchIssued := false, loadBegan := false,
        spawnedChildren := [], cancelledPrev := false, handleInstalled := false }
    | some cur0 =>
      let idx := variableIndex.toNat
      let cancelledPrev := st.promises.contains cur0.name
      let st1 := { st with promises :=
        if st.promises.contains cur0.name then st.promises
        else cur0.name :: st.promises }
      if cur0.isVariableLoadingPending = false then
        { st := st1, settled := false, fetchIssued := false,
          loadBegan := false, spawnedChildren := [],
          cancelledPrev := cancelledPrev, handleInstalled := true }
      else if ¬ ctx.dateOK then
        { st := st1, settled := false, fetchIssued := false,
          loadBegan := false, spawnedChildren := [],
          cancelledPrev := cancelledPrev, handleInstalled := true }
      else if truthyS ((ctx.graph cur0.name).parentVariables.find?
          (fun p =>
            match st1.values.find? (fun w => w.name = p) with
            | some w => w.isLoading || w.isVariableLoadingPending
            | none => false)) then
        { st := st1, settled := false, fetchIssued := false,
          loadBegan := false, spawnedChildren := [],
          cancelledPrev := cancelledPrev, handleInstalled := true }
      else
        match cur0.vtype with
        | .queryValues =>
          let cur1 := { cur0 with isLoading := true }
          let ls := substLoop idx qc0 cur1 st1.values
          let cur2 := queryValuesCompletion ls.cur fetch
            (oldLookup st1.oldData cur0.name)
          let st2 := { st1 with values := st1.values.set idx cur2 }
          let settled := ls.settled.getD true
          if settled then
            let r := commitThen ctx st2 idx
            { st := r.1, settled := true, fetchIssued := true,
              loadBegan := true, spawnedChildren := r.2,
              cancelledPrev := cancelledPrev, handleInstalled := true }
          else
            { st := st2, settled := false, fetchIssued := true,
              loadBegan := true, spawnedChildren := [],
              cancelledPrev := cancelledPrev, handleInstalled := true }
        | .custom =>
          let oldSel : List (Option String) :=
            match oldLookup st1.oldData cur0.name with
            | some ov => if jsTruthy ov then toListVal ov else []
            | none => []
          let cur1 := handleCustomVariablesLogic cur0 oldSel
          let st2 := { st1 with values := st1.values.set idx cur1 }
          let r := commitThen ctx st2 idx
          { st := r.1, settled := true, fetchIssued := false,
            loadBegan := false, spawnedChildren := r.2,
            cancelledPrev := cancelledPrev, handleInstalled := true }
        | _ =>
          let r := commitThen ctx st1 idx
          { st := r.1, settled := true, fetchIssued := false,
            loadBegan := false, spawnedChildren := r.2,
            cancelledPrev := cancelledPrev, handleInstalled := true }

/-- The rejected branch of the promise's `.catch` handler (source lines
738–754), which runs when a stored reject handle is invoked to cancel an
in-flight load: clear the stored handle and set `isLoading` to false; nothing
else — in particular no child attempts and no old-value record. -/
def cancelledCatchEffect (st : EngineState) (variableIndex : Int) :
    EngineState :=
  if variableIndex < 0 then st
  else
    match st.values.get? variableIndex.toNat with
    | none => st
    | some v =>
      { st with
          promises := st.promises.erase v.name,
          values := st.values.set variableIndex.toNat
            { v with isLoading := false } }

/-- Mark the first variable named `c` as pending
(`variableObj.isVariableLoadingPending = true` after an
`Array.prototype.find`). -/
def setPendingFirst : List Variable → String → List Variable
  | [], _ => []
  | v :: vs, c =>
    if v.name = c then { v with isVariableLoadingPending := true } :: vs
    else v :: setPendingFirst vs c

/-- `setLoadingStateToAllChildNode` (source lines 777–786), processed as a
worklist with explicit fuel: for each name in the worklist, the first variable
of that name is marked pending and the name's own children are processed
recursively, then the remaining worklist.  `none` models the JS executions that
do not return normally (the `find` dereference on a missing child name throws;
a cyclic graph overflows the stack), which fuel exhaustion also covers. -/
def markWs (g : String → DepNode) : Nat → List String → List Variable →
    Option (List Variable)
  | 0, _, _ => none
  | _ + 1, [], vals => some vals
  | f + 1, c :: cs, vals =>
    match vals.find? (fun v => v.name = c) with
    | none => none
    | some _ =>
      match markWs g f (g c).childVariables (setPendingFirst vals c) with
      | none => none
      | some vals2 => markWs g f cs vals2

/-- The names reachable from a worklist through `childVariables` edges within
the given fuel (the traversal order and fuel discipline of `markWs`). -/
def reachWs (g : String → DepNode) : Nat → List String → List String
  | 0, _ => []
  | _ + 1, [] => []
  | f + 1, c :: cs => c :: (reachWs g f (g c).childVariables ++ reachWs g f cs)

/-- `n` is in the transitive-descendant closure of the worklist `ws`:
either a member of `ws`, or a child of a name already in the closure.  With
`ws = (g X).childVariables` this is exactly "transitive descendant of `X`" in
the dependency graph. -/
inductive ReachesFrom (g : String → DepNode) (ws : List String) : String → Prop
  | base {n : String} : n ∈ ws → ReachesFrom g ws n
  | step {m n : String} : ReachesFrom g ws m → n ∈ (g m).childVariables →
      ReachesFrom g ws n

/-- Result of a cycle entry point: the state after its synchronous part, and
the indices for which load attempts were spawned (the `Promise.all` is not
awaited by the source function). -/
structure CycleOut where
  st : EngineState
  attempts : List Int
deriving DecidableEq, Repr

/-- `loadAllVariablesData` (source lines 757–775): with an invalid time range
the function returns immediately; otherwise every variable is marked pending
and an attempt is spawned for every index. -/
def loadAllVariablesData (ctx : Ctx) (st : EngineState) : CycleOut :=
  if ¬ ctx.dateOK then
    { st := st, attempts := [] }
  else
    let vals := st.values.map
      (fun v => { v with isVariableLoadingPending := true })
    { st := { st with values := vals },
      attempts := (List.range st.values.length).map Int.ofNat }

/-- `onVariablesValueUpdated(variableIndex)` (source lines 788–810): record the
edited variable's new value into `oldVariablesData`, mark its whole descendant
closure pending via `setLoadingStateToAllChildNode`, and spawn an attempt for
every index.  `none` models the non-returning executions of the recursive
marking (missing child name, or a cyclic graph). -/
def onVariablesValueUpdated (ctx : Ctx) (fuel : Nat) (st : EngineState)
    (variableIndex : Int) : Option CycleOut :=
  if variableIndex < 0 then some { st := st, attempts := [] }
  else
    match st.values.get? variableIndex.toNat with
    | none => some { st := st, attempts := [] }
    | some v =>
      let od := oldInsert st.oldData v.name v.value
      match markWs ctx.graph fuel (ctx.graph v.name).childVariables st.values with
      | none => none
      | some vals =>
        some { st := { st with oldData := od, values := vals },
               attempts := (List.range st.values.length).map Int.ofNat }

/-- Run a list of spawned attempts sequentially (the oracle gives each index
its query context and fetch outcome).  Nested spawns are not followed; every
theorem using this is about attempts that spawn nothing. -/
def runAttempts (ctx : Ctx) (oracle : Int → String × FetchOutcome) :
    List Int → EngineState → EngineState
  | [], st => st
  | i :: is, st =>
    runAttempts ctx oracle is
      (loadSingleVariableDataByIndex ctx (oracle i).1 (oracle i).2 st i).st

/-- `resetVariablesData` (source lines 140–143). -/
def resetVariablesData (st : EngineState) : EngineState :=
  { st with isVariablesLoading := false, values := [] }

/-- One entry of the `variablesConfig.list` prop (the fields the engine
reads). -/
structure ConfigItem where
  name : String
  vtype : VarType
  multiSelect : Bool := false
  value : VarValue := .scalar none
  options : List VOption := []
  selectAllValueForMultiSelect : String := ""
  customMultiSelectValue : List String := []
  queryDataField : String := ""
deriving DecidableEq, Repr

/-- JS `a ?? b` on a `VarValue` (our `scalar none` stands for both null and
undefined). -/
def jsNullish (a b : VarValue) : VarValue :=
  match a with
  | .scalar none => b
  | x => x

/-- `initializeVariablesData` (source lines 145–228): reset, then build one
`Variable` per config item with `isLoading = false` and
`isVariableLoadingPending = true`, seeding `value` from the initial-values map
(wrapped into a singleton array for multi-select variables; constants keep
their configured value, textboxes fall back to it), and record the initial
value into `oldVariablesData`; with `showDynamicFilters` an extra
`Dynamic filters` variable is appended.  The JSON/percent decoding of
dynamic-filters initial values is collapsed into the `initVals` map, whose
entries are already decoded (`%5B%5D`, the default, decodes to `[]`).
`isVariablesLoading` is not touched here. -/
def initializeVariablesData (cfg : Option (List ConfigItem))
    (initVals : String → Option VarValue) (showDynamicFilters : Bool)
    (st : EngineState) : EngineState :=
  let st0 := resetVariablesData st
  match cfg with
  | none => st0
  | some items =>
    let st1 := items.foldl (fun acc item =>
      let initialValue0 : VarValue :=
        match item.vtype with
        | .dynamicFilters => (initVals item.name).getD (.arr [])
        | _ => (initVals item.name).getD (.scalar none)
      let initialValue : VarValue :=
        if item.multiSelect then
          match initialValue0 with
          | .arr xs => .arr xs
          | .scalar s => .arr [s]
        else initialValue0
      let value : VarValue :=
        if item.vtype = .constant then item.value
        else if item.vtype = .textbox then jsNullish initialValue item.value
        else initialValue
      let vd : Variable :=
        { name := item.name, vtype := item.vtype,
          multiSelect := item.multiSelect, value := value,
          options := item.options, isLoading := false,
          isVariableLoadingPending := true,
          selectAllValueForMultiSelect := item.selectAllValueForMultiSelect,
          customMultiSelectValue := item.customMultiSelectValue,
          queryDataField := item.queryDataField }
      { acc with values := acc.values ++ [vd],
                 oldData := oldInsert acc.oldData item.name initialValue }) st0
    if showDynamicFilters then
      let initialValue := (initVals "Dynamic filters").getD (.arr [])
      let vd : Variable :=
        { name := "Dynamic filters", vtype := .dynamicFilters,
          multiSelect := false, value := initialValue, options := [],
          isLoading := false, isVariableLoadingPending := true }
      { st1 with values := st1.values ++ [vd],
                 oldData := oldInsert st1.oldData "Dynamic filters" initialValue }
    else st1

/-- The invariant claimed for every emitted snapshot: `isVariablesLoading` is
true iff some variable is loading or pending.  Snapshots are structural deep
copies of `variablesData` (`JSON.parse(JSON.stringify(...))`), so the
predicate is stated on the state itself. -/
def snapshotConsistent (st : EngineState) : Prop :=
  st.isVariablesLoading = true ↔
    st.values.any (fun v => v.isLoading || v.isVariableLoadingPending) = true

instance (st : EngineState) : Decidable (snapshotConsistent st) := by
  unfold snapshotConsistent; infer_instance

/-- Mark a variable pending (the mutation performed by the child-marking
traversal). -/
def pendVar (v : Variable) : Variable :=
  { v with isVariableLoadingPending := true }

/-- The first variable of the given name (what `values.find(...)` reads and
mutates in the source). -/
def firstNamed (vals : List Variable) (n : String) : Option Variable :=
  vals.find? (fun v => v.name = n)

/-- Pointwise relation between a variable list and the same list after some
variables were marked pending: every position is unchanged or marked. -/
def MarkedLe (a b : List Variable) : Prop :=
  List.Forall₂ (fun w w' => w' = w ∨ w' = pendVar w) a b

/-- The marking traversal was (successfully) run from some state on the given
name's children, and its result is below the final list: the induction
invariant for the transitive-descendant theorem. -/
def SubSuccess (g : String → DepNode) (n : String) (final : List Variable) :
    Prop :=
  ∃ f u u', markWs g f (g n).childVariables u = some u' ∧ MarkedLe u' final

/-- The parent guard of `loadSingleVariableDataByIndex`, in the claim's terms:
every parent in the dependency graph that exists among the variables is
neither loading nor pending. -/
def parentsClear (ctx : Ctx) (values : List Variable) (name : String) : Bool :=
  (ctx.graph name).parentVariables.all (fun p =>
    match values.find? (fun w => w.name = p) with
    | some w => !(w.isLoading || w.isVariableLoadingPending)
    | none => true)

/-- Load eligibility in the claim's terms: a valid index, a pending variable,
a valid time range, and no parent loading or pending. -/
def eligibleForLoad (ctx : Ctx) (st : EngineState) (i : Int) : Bool :=
  if i < 0 then false
  else
    match st.values.get? i.toNat with
    | none => false
    | some v =>
      v.isVariableLoadingPending && ctx.dateOK &&
        parentsClear ctx st.values v.name

/-- Every parent name of the indexed variable is non-empty (vacuously true for
an invalid index).  Dependency edges come from `$name` tokens, so an
empty-string parent name cannot arise from the graph builder; the hypothesis
rules out the JS truthiness artefact of `find` returning an empty string. -/
def parentNamesNonempty (ctx : Ctx) (st : EngineState) (i : Int) : Bool :=
  match st.values.get? i.toNat with
  | none => true
  | some v => (ctx.graph v.name).parentVariables.all (fun p => ¬ p = "")

/-- Values of the new options that occur in the old selection, in option
order. -/
def intersectOldOptions (options : List VOption) (old : List (Option String)) :
    List String :=
  (options.filter (fun o => old.contains (some o.value))).map (·.value)

/-- Multi-select reconciliation for query_values variables, as amended: the
old∩options intersection in option order when non-empty, else the select-all
policy (`custom` keeps the option values listed in `customMultiSelectValue`,
`all` keeps every option value, anything else the first option's value). -/
def reconcileMultiQuerySpec (options : List VOption) (policy : String)
    (customList : List String) (old : List (Option String)) : List String :=
  let inter := intersectOldOptions options old
  if inter ≠ [] then inter
  else if policy = "custom" then
    (options.map (·.value)).filter (fun x => customList.contains x)
  else if policy = "all" then options.map (·.value)
  else [options.headI.value]

/-- Multi-select reconciliation for custom variables, as amended: the
old∩options intersection in option order when non-empty, else the values of
the `selected`-flagged options when any, else the first option's value (the
select-all policy is never consulted). -/
def reconcileMultiCustomSpec (options : List VOption)
    (old : List (Option String)) : List String :=
  let inter := intersectOldOptions options old
  if inter ≠ [] then inter
  else
    let sel := (options.filter (·.selected)).map (·.value)
    if sel ≠ [] then sel else [options.headI.value]

/-- Single-select fallback for query_values variables, as amended: with no
options the selection is null; otherwise policy `custom` keeps the FIRST entry
of `customMultiSelectValue` when it occurs among the option values and the
first option's value otherwise; any other policy keeps the first option's
value. -/
def fallbackSingleQuerySpec (options : List VOption) (policy : String)
    (customList : List String) : Option String :=
  match options with
  | [] => none
  | o :: _ =>
    if policy = "custom" then
      match customList.head? with
      | some c =>
        if (options.map (·.value)).contains c then some c else some o.value
      | none => some o.value
    else some o.value

/-- Single-select reconciliation for query_values variables, as amended: only
the FIRST element of the previous selection is consulted — it is kept exactly
when it is a non-empty string occurring among the option values; otherwise the
fallback applies. -/
def reconcileSingleQuerySpec (options : List VOption) (policy : String)
    (customList : List String) (old : List (Option String)) : Option String :=
  match old.head?.join with
  | some h =>
    if (h ≠ "") ∧ (options.map (·.value)).contains h then some h
    else fallbackSingleQuerySpec options policy customList
  | none => fallbackSingleQuerySpec options policy customList

/-- Single-select fallback for custom variables, as amended: with no options
null; else the first `selected`-flagged option value when any, else the first
option's value. -/
def fallbackSingleCustomSpec (options : List VOption) : Option String :=
  match options with
  | [] => none
  | o :: _ =>
    match (options.filter (·.selected)).map (·.value) with
    | [] => some o.value
    | s :: _ => some s

/-- Single-select reconciliation for custom variables, as amended: only the
first element of the previous selection is consulted, kept exactly when it is
a non-empty string occurring among the option values; otherwise the custom
fallback applies. -/
def reconcileSingleCustomSpec (options : List VOption)
    (old : List (Option String)) : Option String :=
  match old.head?.join with
  | some h =>
    if (h ≠ "") ∧ (options.map (·.value)).contains h then some h
    else fallbackSingleCustomSpec options
  | none => fallbackSingleCustomSpec options

/-! Concrete fixtures used by the counterexamples and the witnesses. -/

/-- A variable with an in-flight load for C1: single-select query_values,
currently holding value `a` with options `[a]`. -/
def vC1 : Variable :=
  { name := "A", vtype := .queryValues, multiSelect := false,
    value := .scalar (some "a"), options := [⟨"a", "a", false⟩],
    isLoading := true, isVariableLoadingPending := true,
    queryDataField := "f" }

/-- Context for C2: valid time range, empty dependency graph. -/
def ctxC2 : Ctx := ⟨true, true, fun _ => {}⟩

/-- State for C2: `X` (being loaded) and `Y` (still pending), both
query_values. -/
def stC2 : EngineState :=
  { values :=
      [{ name := "X", vtype := .queryValues, queryDataField := "f" },
       { name := "Y", vtype := .queryValues, queryDataField := "g" }] }

/-- A multi-select custom variable with `selectAllValueForMultiSelect = "all"`
and no `selected` flags, for C3. -/
def vC3 : Variable :=
  { name := "e", vtype := .custom, multiSelect := true,
    options := [⟨"a", "a", false⟩, ⟨"b", "b", false⟩],
    selectAllValueForMultiSelect := "all" }

/-- A multi-select query_values variable for the C3 witness. -/
def vC3w : Variable :=
  { name := "q", vtype := .queryValues, multiSelect := true,
    options := [⟨"a", "a", false⟩, ⟨"b", "b", false⟩, ⟨"c", "c", false⟩],
    selectAllValueForMultiSelect := "all" }

/-- A single-select query_values variable with options `[c, b]`, for C4. -/
def vC4 : Variable :=
  { name := "q", vtype := .queryValues, multiSelect := false,
    options := [⟨"c", "c", false⟩, ⟨"b", "b", false⟩] }

/-- Context for C5: `P` has the single child `C`. -/
def ctxC5 : Ctx :=
  ⟨true, true, fun n => if n = "P" then ⟨[], ["C"]⟩ else ⟨["P"], []⟩⟩

/-- State for C5: multi-select query_values `P` with child `C`, both
pending. -/
def stC5 : EngineState :=
  { values :=
      [{ name := "P", vtype := .queryValues, multiSelect := true,
         queryDataField := "f" },
       { name := "C", vtype := .queryValues, queryDataField := "g" }] }

/-- Context for the C6 witness: valid time range, `B` has parent `A`. -/
def ctxC6 : Ctx :=
  ⟨true, true, fun n => if n = "B" then ⟨["A"], []⟩ else ⟨[], ["B"]⟩⟩

/-- State for the C6 witness: parent `A` still pending, `B` pending. -/
def stC6 : EngineState :=
  { values :=
      [{ name := "A", vtype := .queryValues, queryDataField := "f" },
       { name := "B", vtype := .queryValues, queryDataField := "g" }] }

/-- Configuration for the C7 counterexample: one query_values variable. -/
def cfgC7 : List ConfigItem :=
  [{ name := "a", vtype := .queryValues }]

/-- Context for the C7 witness: valid range, no dependencies. -/
def ctxC7 : Ctx := ⟨true, true, fun _ => {}⟩

/-- State for the C7 witness: one pending textbox variable. -/
def stC7 : EngineState :=
  { isVariablesLoading := false,
    values := [{ name := "t", vtype := .textbox }] }

/-- Context for the C8 witness: the end instant is invalid. -/
def ctxC8 : Ctx := ⟨true, false, fun n => if n = "A" then ⟨[], ["B"]⟩ else ⟨["A"], []⟩⟩

/-- State for the C8 witness: resolved `A` with pending child `B`. -/
def stC8 : EngineState :=
  { isVariablesLoading := true,
    values :=
      [{ name := "A", vtype := .queryValues, value := .scalar (some "x"),
         isVariableLoadingPending := false, queryDataField := "f" },
       { name := "B", vtype := .queryValues, queryDataField := "g" }] }

/-- Oracle for the C8 witness (never reached on an invalid range). -/
def oracleC8 : Int → String × FetchOutcome := fun _ => ("q", .err)

/-- Time range for the C8 witness: well-formed start, missing end — flagged by
the per-instant check. -/
def trC8miss : TimeRange := { startTime := some 100, endTime := none }

/-- Time range for the C8 counterexample: both instants well-formed, end
before start (100 → 50). -/
def trC8rev : TimeRange := { startTime := some 100, endTime := some 50 }

/-- Dependency graph for the C8 counterexample: the single variable `V` has no
parents and no children. -/
def gC8rev : String → DepNode := fun _ => {}

/-- State for the C8 counterexample: one pending query_values variable `V`. -/
def stC8rev : EngineState :=
  { isVariablesLoading := true,
    values := [{ name := "V", vtype := .queryValues, queryDataField := "f" }] }

/-- Oracle for the C8 counterexample: a token-free query context and a
successful fetch with one value. -/
def oracleC8rev : Int → String × FetchOutcome :=
  fun _ => ("SELECT a FROM t", .ok [⟨"f", [some "v1"]⟩])

/-- Dependency graph for the C9 witness: `A → B → C`, plus unrelated `D`. -/
def gC9 : String → DepNode := fun n =>
  if n = "A" then ⟨[], ["B"]⟩
  else if n = "B" then ⟨["A"], ["C"]⟩
  else if n = "C" then ⟨["B"], []⟩
  else ⟨[], []⟩

/-- Context for the C9 witness. -/
def ctxC9 : Ctx := ⟨true, true, gC9⟩

/-- State for the C9 witness: all four variables at rest (resolved). -/
def stC9 : EngineState :=
  { values :=
      [{ name := "A", vtype := .custom, isVariableLoadingPending := false },
       { name := "B", vtype := .custom, isVariableLoadingPending := false },
       { name := "C", vtype := .custom, isVariableLoadingPending := false },
       { name := "D", vtype := .custom, isVariableLoadingPending := false }] }

/-- Expected outcome of the C9 witness: editing `A` marks `B` and `C` pending,
records `A`'s value, leaves `D` untouched, and spawns attempts for all
indices. -/
def outC9 : CycleOut :=
  { st :=
      { isVariablesLoading := false,
        values :=
          [{ name := "A", vtype := .custom, isVariableLoadingPending := false },
           { name := "B", vtype := .custom, isVariableLoadingPending := true },
           { name := "C", vtype := .custom, isVariableLoadingPending := true },
           { name := "D", vtype := .custom, isVariableLoadingPending := false }],
        oldData := [("A", .scalar none)],
        promises := [] },
    attempts := [0, 1, 2, 3] }

/-- Context for the C10 witness: valid range, no dependencies. -/
def ctxC10 : Ctx := ⟨true, true, fun _ => {}⟩

/-- State for the C10 witness: a NON-pending variable `A` (the attempt is
ineligible) with a live stored reject handle for `A`. -/
def stC10 : EngineState :=
  { values :=
      [{ name := "A", vtype := .queryValues,
         isVariableLoadingPending := false, queryDataField := "f" }],
    promises := ["A"] }

/-!
## Theorems

Helper lemmas first, then one theorem per claim (with its witness or
counterexample where required).
-/

/-- C1: a load of `A` was cancelled (its promise rejected by a newer attempt)
while awaiting the fetch; the executor nevertheless resumes when the stale
fetch completes and runs `queryValuesCompletion`, which overwrites `A`'s
options and value with the stale response — contradicting the claim that a
cancelled load's completion leaves value and options unchanged and performs no
state mutation.  (The `.then` commit and the child cascade are indeed skipped
for a rejected promise, and `cancelledCatchEffect` only clears the handle and
`isLoading`; but the executor-body mutations shown here do land.) -/
theorem claim1_cancelled_completion_mutates :
    (queryValuesCompletion vC1 (.ok [⟨"f", [some "b"]⟩])
        (some (.scalar (some "a")))).value = .scalar (some "b") ∧
    (queryValuesCompletion vC1 (.ok [⟨"f", [some "b"]⟩])
        (some (.scalar (some "a")))).options = [⟨"b", "b", false⟩] ∧
    vC1.value ≠ VarValue.scalar (some "b") ∧
    vC1.options ≠ [⟨"b", "b", false⟩] := by decide

/-- C2: loading `X` whose query context still contains the token `$Y` of the
unresolved sibling `Y`.  The loop does put `X` back to pending and settles the
promise with `false` — but, with no `return` in the loop (contradicting the
source's own comment), the executor continues: the field-values fetch IS
issued and its response overwrites `X`'s options and value, contradicting the
claim that the attempt aborts without fetching and leaves value and options
unmodified. -/
theorem claim2_unresolved_token_still_fetches :
    (loadSingleVariableDataByIndex ctxC2 "SELECT a FROM t WHERE y = $Y"
        (.ok [⟨"f", [some "v1"]⟩]) stC2 0).fetchIssued = true ∧
    (loadSingleVariableDataByIndex ctxC2 "SELECT a FROM t WHERE y = $Y"
        (.ok [⟨"f", [some "v1"]⟩]) stC2 0).settled = false ∧
    (loadSingleVariableDataByIndex ctxC2 "SELECT a FROM t WHERE y = $Y"
        (.ok [⟨"f", [some "v1"]⟩]) stC2 0).st.values.get? 0 =
      some { name := "X", vtype := .queryValues,
             value := .scalar (some "v1"),
             options := [⟨"v1", "v1", false⟩], isLoading := false,
             isVariableLoadingPending := true, queryDataField := "f" } ∧
    stC2.values.get? 0 =
      some { name := "X", vtype := .queryValues, value := .scalar none,
             options := [], isLoading := false,
             isVariableLoadingPending := true, queryDataField := "f" } := by
  decide

/-- C3 counterexample: a multi-select custom variable with
`selectAllValueForMultiSelect = "all"`, non-empty options `[a, b]` and an old
selection `[c]` disjoint from them.  The claim says the `all` policy yields
every option's value (`[a, b]`); `handleCustomVariablesLogic` never consults
the policy and yields the first option only (`[a]`). -/
theorem claim3_counterexample :
    vC3.multiSelect = true ∧
    vC3.selectAllValueForMultiSelect = "all" ∧
    vC3.options.map (·.value) = ["a", "b"] ∧
    (handleCustomVariablesLogic vC3 [some "c"]).value = .arr [some "a"] ∧
    VarValue.arr [some "a"] ≠ .arr [some "a", some "b"] := by decide

/-- C4 counterexample: single-select with previous selection `[a, b]` and new
options `[c, b]`.  The first OLD value still existing among the options is
`b`, so the claim predicts `b`; the code only looks at `old[0] = a`, misses,
and falls back to the first option `c`. -/
theorem claim4_counterexample :
    vC4.multiSelect = false ∧
    vC4.options.map (·.value) = ["c", "b"] ∧
    (handleQueryValuesLogic vC4 [some "a", some "b"]).map (fun w => w.value) =
      some (.scalar (some "c")) ∧
    (VarValue.scalar (some "c")) ≠ .scalar (some "b") := by decide

/-- C5 counterexample: a failed fetch for the multi-select variable `P` with
the pending child `C`.  The claim says the value becomes the empty sequence
(`multiSelect = true`) and the children stay blocked; the code sets the value
to `null` (scalar, shape mismatch with `multiSelect`), marks `P` resolved, and
the `.then` handler spawns a load attempt for the child index `1`. -/
theorem claim5_counterexample :
    (loadSingleVariableDataByIndex ctxC5 "SELECT a FROM t" .err stC5 0).st.values.get? 0 =
      some { name := "P", vtype := .queryValues, multiSelect := true,
             value := .scalar none, options := [], isLoading := false,
             isVariableLoadingPending := false, queryDataField := "f" } ∧
    (VarValue.scalar none ≠ VarValue.arr []) ∧
    (loadSingleVariableDataByIndex ctxC5 "SELECT a FROM t" .err
        stC5 0).spawnedChildren = [1] := by decide

/-- Mapping a value-keyed `find?` over options to the value itself. -/
theorem find?_value_map (options : List VOption) (h : String) :
    (options.find? (fun o => o.value = h)).map (·.value) =
      if (options.map (·.value)).contains h then some h else none := by
  induction options with
  | nil => simp
  | cons o os ih =>
    by_cases hv : o.value = h
    · simp [List.find?_cons_of_pos, hv]
    · rw [List.find?_cons_of_neg _ (by simpa using hv)]
      simpa [hv, Ne.symm hv] using ih

/-- C3 (amended): multi-select reconciliation with non-empty options keeps the
old∩options intersection in option order when non-empty; when it is empty,
`handleQueryValuesLogic` applies `selectAllValueForMultiSelect` (`custom` ⇒
option values listed in `customMultiSelectValue`, `all` ⇒ every option value,
default ⇒ the first option's value), while `handleCustomVariablesLogic`
ignores the policy and falls back to the `selected`-flagged option values, else
the first option's value.  The round-trip property (a prior selection that is
an option-order subset of the new options is reproduced exactly) holds for
both handlers through the shared intersection branch. -/
theorem claim3_amended (v : Variable) (old : List (Option String))
    (hm : v.multiSelect = true) (ho : v.options ≠ []) :
    handleQueryValuesLogic v old = some { v with value := .arr (List.map some
      (reconcileMultiQuerySpec v.options v.selectAllValueForMultiSelect
        v.customMultiSelectValue old)) } ∧
    handleCustomVariablesLogic v old = { v with value := .arr (List.map some
      (reconcileMultiCustomSpec v.options old)) } := by
  cases hv : v.options with
  | nil => exact absurd hv ho
  | cons o os =>
    constructor
    · unfold handleQueryValuesLogic reconcileMultiQuerySpec intersectOldOptions
      rw [hm]
      simp only [if_true, gt_iff_lt, List.length_pos, hv, ne_eq, ite_not]
      split_ifs <;> simp_all [List.headI]
    · unfold handleCustomVariablesLogic reconcileMultiCustomSpec
        intersectOldOptions
      rw [hm]
      simp only [if_true, gt_iff_lt, List.length_pos, hv, ne_eq, ite_not]
      split_ifs <;> simp_all [List.headI]

/-- C3 witness: the amended reconciliation evaluated on a concrete multi-select
query_values variable with surviving old selection `[b]`. -/
theorem claim3_witness :
    vC3w.multiSelect = true ∧ vC3w.options ≠ [] ∧
    (handleQueryValuesLogic vC3w [some "b", some "z"] = some { vC3w with
        value := .arr ((reconcileMultiQuerySpec vC3w.options
          vC3w.selectAllValueForMultiSelect vC3w.customMultiSelectValue
          [some "b", some "z"]).map some) } ∧
      handleCustomVariablesLogic vC3w [some "b", some "z"] = { vC3w with
        value := .arr ((reconcileMultiCustomSpec vC3w.options
          [some "b", some "z"]).map some) }) :=
  ⟨rfl, by decide, claim3_amended vC3w [some "b", some "z"] rfl (by decide)⟩

set_option maxHeartbeats 2000000 in
/-- C4 (amended): single-select reconciliation consults only the FIRST element
of the previous selection — it is kept exactly when it is a non-empty string
still occurring among the option values; otherwise, with non-empty options,
`handleQueryValuesLogic`'s `custom` policy keeps `customMultiSelectValue[0]`
when it occurs among the options and the first option's value otherwise, any
other policy the first option's value, while `handleCustomVariablesLogic`
falls back to the first `selected`-flagged option value, else the first
option's value; with no options the selection is null. -/
theorem claim4_amended (v : Variable) (old : List (Option String))
    (hm : v.multiSelect = false) :
    handleQueryValuesLogic v old = some { v with value := .scalar (reconcileSingleQuerySpec
      v.options v.selectAllValueForMultiSelect v.customMultiSelectValue old) } ∧
    handleCustomVariablesLogic v old = { v with
      value := .scalar (reconcileSingleCustomSpec v.options old) } := by
  have hquery : ∀ (opts : List VOption),
      v.options = opts →
      handleQueryValuesLogic v old = some { v with value := .scalar (reconcileSingleQuerySpec
        opts v.selectAllValueForMultiSelect v.customMultiSelectValue old) } := by
    intro opts hv
    unfold handleQueryValuesLogic reconcileSingleQuerySpec
      fallbackSingleQuerySpec
    rw [hm, hv]
    cases hj : old.head?.join with
    | none =>
      cases opts with
      | nil => simp [truthyS]
      | cons o os =>
        by_cases hp : v.selectAllValueForMultiSelect = "custom"
        · cases hc : v.customMultiSelectValue.head? with
          | none => simp [truthyS, hp, hc, List.headI]
          | some c =>
            simp only [find?_value_map, truthyS, hp, hc, List.headI]
            try (split_ifs <;> simp_all [List.headI] <;> tauto)
        · simp [truthyS, hp, List.headI]
    | some h =>
      cases opts with
      | nil => simp [truthyS]
      | cons o os =>
        by_cases hp : v.selectAllValueForMultiSelect = "custom"
        · cases hc : v.customMultiSelectValue.head? with
          | none =>
            simp only [find?_value_map, hp, hc, List.headI]
            try (split_ifs <;> simp_all [truthyS, List.headI] <;> tauto)
          | some c =>
            simp only [find?_value_map, hp, hc, List.headI]
            try (split_ifs <;> simp_all [truthyS, List.headI] <;> tauto)
        · simp only [find?_value_map, hp, List.headI]
          try (split_ifs <;> simp_all [truthyS, List.headI] <;> tauto)
  have hcustom : ∀ (opts : List VOption),
      v.options = opts →
      handleCustomVariablesLogic v old = { v with value := .scalar (reconcileSingleCustomSpec
        opts old) } := by
    clear hquery
    intro opts hv
    unfold handleCustomVariablesLogic reconcileSingleCustomSpec
      fallbackSingleCustomSpec
    rw [hm, hv]
    cases hj : old.head?.join with
    | none =>
      cases opts with
      | nil => simp [truthyS]
      | cons o os =>
        cases hs : ((o :: os).filter (fun x => x.selected)).map
            (fun x => x.value) with
        | nil => simp [truthyS, hs, List.headI]
        | cons s ss => simp [truthyS, hs, List.headI]
    | some h =>
      cases opts with
      | nil => simp [truthyS]
      | cons o os =>
        cases hs : ((o :: os).filter (fun x => x.selected)).map
            (fun x => x.value) with
        | nil =>
          simp only [find?_value_map, hs, List.headI]
          split_ifs <;> simp_all [truthyS, List.headI] <;> tauto
        | cons s ss =>
          simp only [find?_value_map, hs, List.headI]
          split_ifs <;> simp_all [truthyS, List.headI] <;> tauto
  exact ⟨hquery v.options rfl, hcustom v.options rfl⟩

/-- C4 witness: the amended single-select reconciliation evaluated on the
concrete variable of the counterexample. -/
theorem claim4_witness :
    vC4.multiSelect = false ∧
    (handleQueryValuesLogic vC4 [some "a", some "b"] = some { vC4 with
        value := .scalar (reconcileSingleQuerySpec vC4.options
          vC4.selectAllValueForMultiSelect vC4.customMultiSelectValue
          [some "a", some "b"]) } ∧
      handleCustomVariablesLogic vC4 [some "a", some "b"] = { vC4 with
        value := .scalar (reconcileSingleCustomSpec vC4.options
          [some "a", some "b"]) }) :=
  ⟨rfl, claim4_amended vC4 [some "a", some "b"] rfl⟩

/-- C7 counterexample: right after `initializeVariablesData` (a state the deep
watcher emits), the single configured variable is pending while
`isVariablesLoading` is still `false` — the claimed iff fails for this emitted
snapshot. -/
theorem claim7_counterexample :
    ¬ snapshotConsistent
        (initializeVariablesData (some cfgC7) (fun _ => none) false {}) := by
  decide

/-- Setting an existing index makes `get?` return the new element. -/
theorem get?_set_self {α : Type} (l : List α) (i : Nat) (v a : α)
    (hv : l.get? i = some v) : (l.set i a).get? i = some a := by
  induction l generalizing i with
  | nil => simp at hv
  | cons x xs ih =>
    cases i with
    | zero => simp
    | succ n => simpa using ih n (by simpa using hv)

/-- Reading back a key just written into the old-values map. -/
theorem oldLookup_oldInsert (od : List (String × VarValue)) (n : String)
    (v : VarValue) : oldLookup (oldInsert od n v) n = some v := by
  induction od with
  | nil => simp [oldInsert, oldLookup]
  | cons p ps ih =>
    by_cases h : p.1 = n
    · simp [oldInsert, oldLookup, h]
    · simpa [oldInsert, oldLookup, h] using ih

/-- A settled accumulator stays settled with the same value through one
substitution step. -/
theorem substStep_settled_mono (k : Nat) (acc : LoopState)
    (pw : Nat × Variable) (b : Bool) (h : acc.settled = some b) :
    (substStep k acc pw).settled = some b := by
  unfold substStep
  repeat' split
  all_goals simp_all
  all_goals repeat' split
  all_goals simp_all

/-- A settled accumulator stays settled through the whole loop. -/
theorem foldl_substStep_settled_mono (k : Nat) (l : List (Nat × Variable))
    (acc : LoopState) (b : Bool) (h : acc.settled = some b) :
    (l.foldl (substStep k) acc).settled = some b := by
  induction l generalizing acc with
  | nil => exact h
  | cons p ps ih => exact ih _ (substStep_settled_mono k acc p b h)

/-- A step that leaves the promise unsettled leaves the current variable
untouched (only the deferral branch both settles and mutates it). -/
theorem substStep_cur_of_settled_none (k : Nat) (acc : LoopState)
    (pw : Nat × Variable) (h : (substStep k acc pw).settled = none) :
    (substStep k acc pw).cur = acc.cur ∧ acc.settled = none := by
  revert h
  unfold substStep
  repeat' split
  all_goals intro h
  all_goals simp_all
  all_goals repeat' split at h
  all_goals simp_all
  all_goals repeat' split
  all_goals simp_all

/-- If the whole loop ends unsettled, the current variable is unchanged. -/
theorem foldl_substStep_cur_of_settled_none (k : Nat)
    (l : List (Nat × Variable)) (acc : LoopState)
    (h : (l.foldl (substStep k) acc).settled = none) :
    (l.foldl (substStep k) acc).cur = acc.cur := by
  induction l generalizing acc with
  | nil => rfl
  | cons p ps ih =>
    have hstep : (substStep k acc p).settled = none := by
      rcases hs : (substStep k acc p).settled with - | b
      · rfl
      · rw [List.foldl_cons] at h
        rw [foldl_substStep_settled_mono k ps _ b hs] at h
        exact absurd h (by simp)
    have := substStep_cur_of_settled_none k acc p hstep
    rw [List.foldl_cons, ih _ (by rwa [List.foldl_cons] at h)]
    exact this.1

/-- An unsettled loop leaves the current variable unchanged
(`substLoop` phrasing). -/
theorem substLoop_cur_of_settled_none (k : Nat) (qc : String) (cur : Variable)
    (values : List Variable)
    (h : (substLoop k qc cur values).settled = none) :
    (substLoop k qc cur values).cur = cur := by
  unfold substLoop at h ⊢
  exact foldl_substStep_cur_of_settled_none k values.enum _ h

/-- A clear parent guard makes the code's `find` miss. -/
theorem parentsClear_find?_none (ctx : Ctx) (values : List Variable)
    (name : String) (h : parentsClear ctx values name = true) :
    ((ctx.graph name).parentVariables.find? (fun p =>
      match values.find? (fun w => w.name = p) with
      | some w => w.isLoading || w.isVariableLoadingPending
      | none => false)) = none := by
  rw [List.find?_eq_none]
  intro p hp
  have harm := List.all_eq_true.mp h p hp
  cases hf : values.find? (fun w => w.name = p) <;> simp_all

/-- C7 (amended): `isVariablesLoading` is recomputed as the claimed
disjunction exactly by the completion handler — every state it publishes
satisfies the iff; snapshots emitted at other points (e.g. right after
initialization, see the counterexample) keep a stale flag and need not
satisfy it. -/
theorem claim7_amended (ctx : Ctx) (st : EngineState) (idx : Nat)
    (v : Variable) (hv : st.values.get? idx = some v) :
    snapshotConsistent (commitThen ctx st idx).1 := by
  unfold commitThen
  rw [hv]
  simp [snapshotConsistent]

/-- C7 witness: the completion handler's output on a concrete one-variable
state satisfies the snapshot invariant. -/
theorem claim7_witness :
    stC7.values.get? 0 = some { name := "t", vtype := .textbox } ∧
    snapshotConsistent (commitThen ctxC7 stC7 0).1 :=
  ⟨rfl, claim7_amended ctxC7 stC7 0 { name := "t", vtype := .textbox } rfl⟩

/-- C10: for every valid variable, `loadSingleVariableDataByIndex` first
invokes the previously stored reject handle (exactly when one is stored) and
installs its own — before the pending/date/parent eligibility checks, so even
an attempt that then turns out ineligible still cancels the variable's
previous in-flight load. -/
theorem claim10_cancel_before_eligibility (ctx : Ctx) (qc : String)
    (fetch : FetchOutcome) (st : EngineState) (i : Int) (v : Variable)
    (h0 : ¬ i < 0) (hv : st.values.get? i.toNat = some v) :
    (loadSingleVariableDataByIndex ctx qc fetch st i).cancelledPrev =
      st.promises.contains v.name ∧
    (loadSingleVariableDataByIndex ctx qc fetch st i).handleInstalled =
      true := by
  unfold loadSingleVariableDataByIndex
  rw [if_neg h0, hv]
  constructor <;>
    (cases hvt : v.vtype <;> simp only [hvt] <;> split_ifs <;> simp)

/-- C10 witness: an ineligible attempt (the variable is not pending) on a
state holding a live reject handle for `A` still reports the cancellation and
the newly installed handle. -/
theorem claim10_witness :
    (¬ (0 : Int) < 0) ∧
    stC10.values.get? (Int.toNat 0) = some
      { name := "A", vtype := .queryValues,
        isVariableLoadingPending := false, queryDataField := "f" } ∧
    ((loadSingleVariableDataByIndex ctxC10 "q" .err stC10 0).cancelledPrev =
        stC10.promises.contains "A" ∧
      (loadSingleVariableDataByIndex ctxC10 "q" .err stC10 0).handleInstalled =
        true) :=
  ⟨by decide, rfl, claim10_cancel_before_eligibility ctxC10 "q" .err stC10 0
    { name := "A", vtype := .queryValues,
      isVariableLoadingPending := false, queryDataField := "f" }
    (by decide) rfl⟩

/-- C6: a load never begins unless the variable is pending, both time-range
instants are valid and no parent is loading or pending: an attempt that is not
eligible (`eligibleForLoad`, the claim's conditions) leaves every variable's
fields, `isVariablesLoading` and the old-values map unchanged, sets no
`isLoading` flag (`loadBegan = false`), issues no fetch, spawns no child
attempts and settles with `false`.  (The attempt still updates the stored
reject handles — see C10.)  The `parentNamesNonempty` hypothesis excludes
empty-string parent names, which the `$name`-token graph builder cannot
produce but which would slip through the code's truthiness test on the found
parent name. -/
theorem claim6_ineligible_attempt_noop (ctx : Ctx) (qc : String)
    (fetch : FetchOutcome) (st : EngineState) (i : Int)
    (hne : parentNamesNonempty ctx st i = true)
    (h : eligibleForLoad ctx st i = false) :
    (loadSingleVariableDataByIndex ctx qc fetch st i).st.values = st.values ∧
    (loadSingleVariableDataByIndex ctx qc fetch st i).st.isVariablesLoading =
      st.isVariablesLoading ∧
    (loadSingleVariableDataByIndex ctx qc fetch st i).st.oldData =
      st.oldData ∧
    (loadSingleVariableDataByIndex ctx qc fetch st i).loadBegan = false ∧
    (loadSingleVariableDataByIndex ctx qc fetch st i).fetchIssued = false ∧
    (loadSingleVariableDataByIndex ctx qc fetch st i).spawnedChildren = [] ∧
    (loadSingleVariableDataByIndex ctx qc fetch st i).settled = false := by
  by_cases h0 : i < 0
  · unfold loadSingleVariableDataByIndex
    rw [if_pos h0]
    exact ⟨rfl, rfl, rfl, rfl, rfl, rfl, rfl⟩
  · cases hv : st.values.get? i.toNat with
    | none =>
      unfold loadSingleVariableDataByIndex
      rw [if_neg h0, hv]
      exact ⟨rfl, rfl, rfl, rfl, rfl, rfl, rfl⟩
    | some v =>
      unfold eligibleForLoad at h
      rw [if_neg h0, hv] at h
      unfold parentNamesNonempty at hne
      rw [hv] at hne
      dsimp only at h hne
      by_cases hp : v.isVariableLoadingPending = false
      · unfold loadSingleVariableDataByIndex
        rw [if_neg h0, hv]
        dsimp only
        rw [if_pos hp]
        exact ⟨rfl, rfl, rfl, rfl, rfl, rfl, rfl⟩
      · have hpend : v.isVariableLoadingPending = true := by
          cases hb : v.isVariableLoadingPending <;> simp_all
        by_cases hd : ctx.dateOK = true
        · have hpc : parentsClear ctx st.values v.name = false := by
            rw [hpend, hd] at h
            simpa using h
          obtain ⟨p, hpmem, hpred⟩ : ∃ p ∈ (ctx.graph v.name).parentVariables,
              (match st.values.find? (fun w => w.name = p) with
               | some w => w.isLoading || w.isVariableLoadingPending
               | none => false) = true := by
            by_contra hcon
            push_neg at hcon
            have hall : parentsClear ctx st.values v.name = true := by
              unfold parentsClear
              rw [List.all_eq_true]
              intro p hp2
              have h3 := hcon p hp2
              cases hf : st.values.find? (fun w => w.name = p) <;> simp_all
            rw [hall] at hpc
            exact absurd hpc (by simp)
          rcases hfind : ((ctx.graph v.name).parentVariables.find? (fun p =>
              match st.values.find? (fun w => w.name = p) with
              | some w => w.isLoading || w.isVariableLoadingPending
              | none => false)) with - | q
          · rw [List.find?_eq_none] at hfind
            exact absurd hpred (by simpa using hfind p hpmem)
          · have hqmem := List.mem_of_find?_eq_some hfind
            have hqne : ¬ q = "" := by
              have := List.all_eq_true.mp hne q hqmem
              simpa using this
            unfold loadSingleVariableDataByIndex
            rw [if_neg h0, hv]
            dsimp only
            rw [if_neg hp, if_neg (by simp [hd])]
            rw [if_pos (by rw [hfind]; simp [truthyS, hqne])]
            exact ⟨rfl, rfl, rfl, rfl, rfl, rfl, rfl⟩
        · unfold loadSingleVariableDataByIndex
          rw [if_neg h0, hv]
          dsimp only
          rw [if_neg hp, if_pos hd]
          exact ⟨rfl, rfl, rfl, rfl, rfl, rfl, rfl⟩

/-- C5 (amended): when an eligible query_values attempt's fetch fails (and the
substitution pass settled nothing, i.e. found no unresolved token), the
variable's value becomes null — a scalar, regardless of `multiSelect` — its
options become empty, and the failure is committed like a success: the promise
resolves `true`, the variable is marked neither loading nor pending, the
old-values map records the null, and the `.then` handler spawns load attempts
for exactly the child indices (children are NOT blocked).  There is no
automatic retry: the attempt ends with the commit. -/
theorem claim5_amended (ctx : Ctx) (qc : String) (st : EngineState) (i : Int)
    (v : Variable) (hv : st.values.get? i.toNat = some v)
    (hvt : v.vtype = .queryValues)
    (heli : eligibleForLoad ctx st i = true)
    (hs : (substLoop i.toNat qc { v with isLoading := true }
        st.values).settled = none) :
    (loadSingleVariableDataByIndex ctx qc .err st i).settled = true ∧
    (loadSingleVariableDataByIndex ctx qc .err st i).st.values.get? i.toNat =
      some { v with isLoading := false, isVariableLoadingPending := false,
                    value := .scalar none, options := [] } ∧
    oldLookup (loadSingleVariableDataByIndex ctx qc .err st i).st.oldData
      v.name = some (.scalar none) ∧
    (loadSingleVariableDataByIndex ctx qc .err st i).spawnedChildren =
      childIndices ctx
        (loadSingleVariableDataByIndex ctx qc .err st i).st.values v.name ∧
    (loadSingleVariableDataByIndex ctx qc .err st i).loadBegan = true ∧
    (loadSingleVariableDataByIndex ctx qc .err st i).fetchIssued = true := by
  have h0 : ¬ i < 0 := by
    intro hlt
    unfold eligibleForLoad at heli
    rw [if_pos hlt] at heli
    exact absurd heli (by simp)
  unfold eligibleForLoad at heli
  rw [if_neg h0, hv] at heli
  dsimp only at heli
  rw [Bool.and_eq_true, Bool.and_eq_true] at heli
  obtain ⟨⟨hpend, hd⟩, hpc⟩ := heli
  have hguard := parentsClear_find?_none ctx st.values v.name hpc
  have hcur : (substLoop i.toNat qc { v with isLoading := true }
      st.values).cur = { v with isLoading := true } :=
    substLoop_cur_of_settled_none _ _ _ _ hs
  unfold loadSingleVariableDataByIndex
  rw [if_neg h0, hv]
  dsimp only
  rw [if_neg (by rw [hpend]; simp), if_neg (by rw [hd]; simp),
    if_neg (by rw [hguard]; simp [truthyS]), hvt]
  dsimp only
  rw [hvt] at hs hcur
  rw [hs, hcur]
  simp only [Option.getD_none, if_true]
  unfold commitThen
  rw [get?_set_self st.values i.toNat v _ hv]
  dsimp only
  refine ⟨by trivial, ?_, ?_, ?_, by trivial, by trivial⟩
  · rw [get?_set_self _ i.toNat _ _
      (get?_set_self st.values i.toNat v _ hv)]
    simp [queryValuesCompletion, hvt]
  · simp [queryValuesCompletion, oldLookup_oldInsert]
  · simp [queryValuesCompletion]

/-- C5 witness: the concrete failed fetch of the counterexample, through the
amended characterization. -/
theorem claim5_witness :
    stC5.values.get? (Int.toNat 0) = some
      { name := "P", vtype := .queryValues, multiSelect := true,
        queryDataField := "f" } ∧
    eligibleForLoad ctxC5 stC5 0 = true ∧
    (substLoop (Int.toNat 0) "SELECT a FROM t"
      { { name := "P", vtype := .queryValues, multiSelect := true,
          queryDataField := "f" : Variable } with isLoading := true }
      stC5.values).settled = none ∧
    ((loadSingleVariableDataByIndex ctxC5 "SELECT a FROM t" .err stC5 0).settled = true ∧
      (loadSingleVariableDataByIndex ctxC5 "SELECT a FROM t" .err stC5 0).st.values.get? (Int.toNat 0) =
        some { { name := "P", vtype := .queryValues, multiSelect := true,
                 queryDataField := "f" : Variable } with
               isLoading := false, isVariableLoadingPending := false,
               value := .scalar none, options := [] } ∧
      oldLookup (loadSingleVariableDataByIndex ctxC5 "SELECT a FROM t" .err stC5 0).st.oldData "P" =
        some (.scalar none) ∧
      (loadSingleVariableDataByIndex ctxC5 "SELECT a FROM t" .err stC5 0).spawnedChildren =
        childIndices ctxC5
          (loadSingleVariableDataByIndex ctxC5 "SELECT a FROM t" .err stC5 0).st.values "P" ∧
      (loadSingleVariableDataByIndex ctxC5 "SELECT a FROM t" .err stC5 0).loadBegan = true ∧
      (loadSingleVariableDataByIndex ctxC5 "SELECT a FROM t" .err stC5 0).fetchIssued = true) :=
  ⟨rfl, by decide, by decide,
    claim5_amended ctxC5 "SELECT a FROM t" stC5 0
      { name := "P", vtype := .queryValues, multiSelect := true,
        queryDataField := "f" }
      rfl rfl (by decide) (by decide)⟩

/-- C6 witness: with a valid range, variable `B` is pending but its parent `A`
is also pending, so the attempt for `B` is ineligible and is a no-op on the
variable state. -/
theorem claim6_witness :
    parentNamesNonempty ctxC6 stC6 1 = true ∧
    eligibleForLoad ctxC6 stC6 1 = false ∧
    ((loadSingleVariableDataByIndex ctxC6 "q" .err stC6 1).st.values =
        stC6.values ∧
      (loadSingleVariableDataByIndex ctxC6 "q" .err stC6 1).st.isVariablesLoading =
        stC6.isVariablesLoading ∧
      (loadSingleVariableDataByIndex ctxC6 "q" .err stC6 1).st.oldData =
        stC6.oldData ∧
      (loadSingleVariableDataByIndex ctxC6 "q" .err stC6 1).loadBegan = false ∧
      (loadSingleVariableDataByIndex ctxC6 "q" .err stC6 1).fetchIssued = false ∧
      (loadSingleVariableDataByIndex ctxC6 "q" .err stC6 1).spawnedChildren = [] ∧
      (loadSingleVariableDataByIndex ctxC6 "q" .err stC6 1).settled = false) :=
  ⟨by decide, by decide,
    claim6_ineligible_attempt_noop ctxC6 "q" .err stC6 1 (by decide) (by decide)⟩

/-- Marking is idempotent. -/
theorem pendVar_idem (v : Variable) : pendVar (pendVar v) = pendVar v := rfl

/-- Marking preserves the name. -/
theorem pendVar_name (v : Variable) : (pendVar v).name = v.name := rfl

/-- `MarkedLe` is reflexive. -/
theorem markedLe_refl (l : List Variable) : MarkedLe l l :=
  List.forall₂_same.mpr (fun _ _ => Or.inl rfl)

/-- `MarkedLe` is transitive. -/
theorem markedLe_trans {a b c : List Variable} (h1 : MarkedLe a b)
    (h2 : MarkedLe b c) : MarkedLe a c := by
  induction h1 generalizing c with
  | nil => cases h2; exact .nil
  | cons hab t ih =>
    cases h2 with
    | cons hbc t2 =>
      refine .cons ?_ (ih t2)
      rcases hab with rfl | rfl <;> rcases hbc with rfl | rfl <;>
        simp [pendVar_idem]

/-- Pointwise reading of `MarkedLe`. -/
theorem markedLe_get? {a b : List Variable} (h : MarkedLe a b) (j : Nat)
    (w : Variable) (hw : a.get? j = some w) :
    ∃ w', b.get? j = some w' ∧ (w' = w ∨ w' = pendVar w) := by
  induction h generalizing j with
  | nil => simp at hw
  | cons r t ih =>
    cases j with
    | zero =>
      simp only [List.get?_cons_zero, Option.some.injEq] at hw
      subst hw
      exact ⟨_, rfl, r⟩
    | succ m => simpa using ih m (by simpa using hw)

/-- A pending first occurrence stays pending through further marking. -/
theorem markedLe_firstNamed_pending {a b : List Variable} (h : MarkedLe a b)
    (n : String)
    (hp : ∀ w, firstNamed a n = some w → w.isVariableLoadingPending = true) :
    ∀ w', firstNamed b n = some w' → w'.isVariableLoadingPending = true := by
  induction h with
  | nil => intro w' hw'; simp [firstNamed] at hw'
  | @cons x y as bs r t ih =>
    intro w' hw'
    have hname : y.name = x.name := by
      rcases r with rfl | rfl <;> rfl
    by_cases hn : x.name = n
    · have hx := hp x (by
        unfold firstNamed
        exact List.find?_cons_of_pos _ (by simpa using hn))
      unfold firstNamed at hw'
      rw [List.find?_cons_of_pos _ (by simp [hname, hn])] at hw'
      injection hw' with hw'
      subst hw'
      rcases r with rfl | rfl
      · exact hx
      · rfl
    · unfold firstNamed at hw'
      rw [List.find?_cons_of_neg _ (by simp [hname, hn])] at hw'
      refine ih ?_ w' hw'
      intro w hw
      refine hp w ?_
      unfold firstNamed
      rw [List.find?_cons_of_neg _ (by simpa using hn)]
      exact hw

/-- Marking the first occurrence is a `MarkedLe` step. -/
theorem setPendingFirst_markedLe (vals : List Variable) (c : String) :
    MarkedLe vals (setPendingFirst vals c) := by
  induction vals with
  | nil => exact .nil
  | cons v vs ih =>
    unfold setPendingFirst
    by_cases h : v.name = c
    · rw [if_pos h]; exact .cons (Or.inr rfl) (markedLe_refl vs)
    · rw [if_neg h]; exact .cons (Or.inl rfl) ih

/-- Marking the first occurrence makes the first occurrence pending. -/
theorem setPendingFirst_firstNamed (vals : List Variable) (c : String)
    (w : Variable) (hw : vals.find? (fun v => v.name = c) = some w) :
    firstNamed (setPendingFirst vals c) c = some (pendVar w) := by
  induction vals with
  | nil => simp at hw
  | cons v vs ih =>
    by_cases h : v.name = c
    · rw [List.find?_cons_of_pos _ (by simpa using h)] at hw
      injection hw with hw
      subst hw
      unfold setPendingFirst firstNamed
      rw [if_pos h]
      exact List.find?_cons_of_pos _ (by simpa [pendVar] using h)
    · rw [List.find?_cons_of_neg _ (by simpa using h)] at hw
      unfold setPendingFirst firstNamed
      rw [if_neg h]
      unfold firstNamed at ih
      rw [List.find?_cons_of_neg _ (by simpa using h)]
      exact ih hw

/-- Marking one name leaves positions with other names unchanged. -/
theorem setPendingFirst_get?_of_ne (vals : List Variable) (c : String)
    (j : Nat) (w : Variable) (hw : vals.get? j = some w) (hn : w.name ≠ c) :
    (setPendingFirst vals c).get? j = some w := by
  induction vals generalizing j with
  | nil => simp at hw
  | cons v vs ih =>
    unfold setPendingFirst
    by_cases h : v.name = c
    · rw [if_pos h]
      cases j with
      | zero =>
        simp only [List.get?_cons_zero, Option.some.injEq] at hw
        subst hw
        exact absurd h hn
      | succ m => simpa using hw
    · rw [if_neg h]
      cases j with
      | zero => simpa using hw
      | succ m => simpa using ih m (by simpa using hw)

/-- A successful marking run only marks: the result is `MarkedLe`-above the
input. -/
theorem markWs_markedLe (g : String → DepNode) :
    ∀ (f : Nat) (ws : List String) (vals vals' : List Variable),
    markWs g f ws vals = some vals' → MarkedLe vals vals' := by
  intro f
  induction f with
  | zero => intro ws vals vals' h; simp [markWs] at h
  | succ f ih =>
    intro ws vals vals' h
    cases ws with
    | nil =>
      simp only [markWs, Option.some.injEq] at h
      subst h
      exact markedLe_refl _
    | cons c cs =>
      unfold markWs at h
      cases hf : vals.find? (fun v => v.name = c) with
      | none => rw [hf] at h; simp at h
      | some w0 =>
        rw [hf] at h
        cases h1 : markWs g f (g c).childVariables (setPendingFirst vals c) with
        | none => rw [h1] at h; simp at h
        | some u =>
          rw [h1] at h
          dsimp only at h
          exact markedLe_trans
            (markedLe_trans (setPendingFirst_markedLe vals c) (ih _ _ _ h1))
            (ih _ _ _ h)

/-- Closure membership is monotone in the worklist. -/
theorem reachesFrom_mono {g : String → DepNode} {ws ws' : List String}
    (hsub : ∀ x ∈ ws, x ∈ ws') {n : String} (h : ReachesFrom g ws n) :
    ReachesFrom g ws' n := by
  induction h with
  | base hm => exact .base (hsub _ hm)
  | step _ hc ih => exact .step ih hc

/-- The closure of a member's children embeds into the worklist's closure. -/
theorem reachesFrom_children {g : String → DepNode} {ws : List String}
    {c : String} (hc : c ∈ ws) {n : String}
    (h : ReachesFrom g (g c).childVariables n) : ReachesFrom g ws n := by
  induction h with
  | base hm => exact .step (.base hc) hm
  | step _ hch ih => exact .step ih hch

/-- Positions whose name is outside the worklist's closure are untouched by
the marking run. -/
theorem markWs_frame (g : String → DepNode) :
    ∀ (f : Nat) (ws : List String) (vals vals' : List Variable),
    markWs g f ws vals = some vals' → ∀ (j : Nat) (w : Variable),
    vals.get? j = some w → ¬ ReachesFrom g ws w.name →
    vals'.get? j = some w := by
  intro f
  induction f with
  | zero => intro ws vals vals' h; simp [markWs] at h
  | succ f ih =>
    intro ws vals vals' h j w hw hnr
    cases ws with
    | nil =>
      simp only [markWs, Option.some.injEq] at h
      subst h
      exact hw
    | cons c cs =>
      unfold markWs at h
      cases hf : vals.find? (fun v => v.name = c) with
      | none => rw [hf] at h; simp at h
      | some w0 =>
        rw [hf] at h
        cases h1 : markWs g f (g c).childVariables (setPendingFirst vals c) with
        | none => rw [h1] at h; simp at h
        | some u =>
          rw [h1] at h
          dsimp only at h
          have hwname : w.name ≠ c := by
            intro heq
            exact hnr (ReachesFrom.base (by
              rw [heq]; exact List.mem_cons_self c cs))
          have hw1 := setPendingFirst_get?_of_ne vals c j w hw hwname
          have h2 : ¬ ReachesFrom g (g c).childVariables w.name := fun hr =>
            hnr (reachesFrom_children (List.mem_cons_self c cs) hr)
          have hw2 := ih _ _ _ h1 j w hw1 h2
          have h3 : ¬ ReachesFrom g cs w.name := fun hr =>
            hnr (reachesFrom_mono (fun x hx => List.mem_cons_of_mem c hx) hr)
          exact ih _ _ _ h j w hw2 h3

/-- Every worklist member's first occurrence is marked by a successful run,
and the run contains a completed sub-run over that member's children. -/
theorem markWs_mem_marks (g : String → DepNode) :
    ∀ (f : Nat) (ws : List String) (vals vals' : List Variable) (c : String),
    markWs g f ws vals = some vals' → c ∈ ws →
    ((∀ w, firstNamed vals' c = some w →
        w.isVariableLoadingPending = true) ∧
      ∃ f' u u', markWs g f' (g c).childVariables u = some u' ∧
        MarkedLe u' vals') := by
  intro f
  induction f with
  | zero => intro ws vals vals' c h; simp [markWs] at h
  | succ f ih =>
    intro ws vals vals' c h hc
    cases ws with
    | nil => simp at hc
    | cons d cs =>
      unfold markWs at h
      cases hf : vals.find? (fun v => v.name = d) with
      | none => rw [hf] at h; simp at h
      | some w0 =>
        rw [hf] at h
        cases h1 : markWs g f (g d).childVariables (setPendingFirst vals d) with
        | none => rw [h1] at h; simp at h
        | some u =>
          rw [h1] at h
          dsimp only at h
          rcases List.mem_cons.mp hc with rfl | hc'
          · have hP0 : ∀ w, firstNamed (setPendingFirst vals c) c = some w →
                w.isVariableLoadingPending = true := by
              intro w hw
              rw [setPendingFirst_firstNamed vals c _ hf] at hw
              injection hw with hw
              subst hw
              rfl
            have hle1 := markWs_markedLe g f _ _ _ h1
            have hle2 := markWs_markedLe g f _ _ _ h
            exact ⟨markedLe_firstNamed_pending hle2 c
                (markedLe_firstNamed_pending hle1 c hP0),
              ⟨f, setPendingFirst vals c, _, h1, hle2⟩⟩
          · exact ih cs _ vals' c h hc'

/-- Every name in the transitive closure of the worklist gets its first
occurrence marked by a successful marking run. -/
theorem markWs_reaches_aux (g : String → DepNode) (ws : List String) :
    ∀ (n : String), ReachesFrom g ws n →
    ∀ (f : Nat) (vals vals' : List Variable),
    markWs g f ws vals = some vals' →
    ((∀ w, firstNamed vals' n = some w →
        w.isVariableLoadingPending = true) ∧
      ∃ f' u u', markWs g f' (g n).childVariables u = some u' ∧
        MarkedLe u' vals') := by
  intro n hn
  induction hn with
  | base hm =>
    intro f vals vals' h
    exact markWs_mem_marks g f ws vals vals' _ h hm
  | step _ hc ih =>
    intro f vals vals' h
    obtain ⟨-, f', u, u', hu, hle⟩ := ih f vals vals' h
    obtain ⟨hP, f'', u2, u2', hu2, hle2⟩ :=
      markWs_mem_marks g f' _ u u' _ hu hc
    exact ⟨markedLe_firstNamed_pending hle _ hP,
      ⟨f'', u2, u2', hu2, markedLe_trans hle2 hle⟩⟩

/-- C9: a user edit of variable `X` (`onVariablesValueUpdated`) marks
`isVariableLoadingPending = true` on every transitive descendant of `X` in the
dependency graph (every name in `ReachesFrom` over `X`'s children — the first
variable of that name, which is the one the source reads), and the marking
step alters no field of any variable outside `X`'s descendant closure; every
position is either unchanged or merely marked pending.  The hypothesis
`onVariablesValueUpdated ... = some out` states that the recursive marking
returned normally, which on an acyclic graph with existing child names it
does for every sufficiently large fuel. -/
theorem claim9_descendants_marked (ctx : Ctx) (fuel : Nat) (st : EngineState)
    (i : Int) (out : CycleOut) (v : Variable)
    (h0 : ¬ i < 0) (hv : st.values.get? i.toNat = some v)
    (hout : onVariablesValueUpdated ctx fuel st i = some out) :
    (∀ n, ReachesFrom ctx.graph (ctx.graph v.name).childVariables n →
      ∀ w, firstNamed out.st.values n = some w →
        w.isVariableLoadingPending = true) ∧
    (∀ j w, st.values.get? j = some w →
      ¬ ReachesFrom ctx.graph (ctx.graph v.name).childVariables w.name →
      out.st.values.get? j = some w) ∧
    (∀ j w, st.values.get? j = some w →
      ∃ w', out.st.values.get? j = some w' ∧
        (w' = w ∨ w' = pendVar w)) := by
  unfold onVariablesValueUpdated at hout
  rw [if_neg h0, hv] at hout
  dsimp only at hout
  cases hm : markWs ctx.graph fuel (ctx.graph v.name).childVariables
      st.values <;> rw [hm] at hout
  · simp at hout
  case some vals' =>
    simp only [Option.some.injEq] at hout
    subst hout
    refine ⟨?_, ?_, ?_⟩
    · intro n hn w hw
      exact (markWs_reaches_aux ctx.graph _ n hn fuel _ _ hm).1 w hw
    · intro j w hw hnr
      exact markWs_frame ctx.graph fuel _ _ _ hm j w hw hnr
    · intro j w hw
      exact markedLe_get? (markWs_markedLe ctx.graph fuel _ _ _ hm) j w hw

/-- C9 witness: editing `A` in the concrete graph `A → B → C` with unrelated
`D` marks exactly `B` and `C`. -/
theorem claim9_witness :
    (¬ (0 : Int) < 0) ∧
    stC9.values.get? (Int.toNat 0) = some
      { name := "A", vtype := .custom, isVariableLoadingPending := false } ∧
    onVariablesValueUpdated ctxC9 10 stC9 0 = some outC9 ∧
    ((∀ n, ReachesFrom ctxC9.graph
        (ctxC9.graph (Variable.name
          { name := "A", vtype := .custom,
            isVariableLoadingPending := false })).childVariables n →
      ∀ w, firstNamed outC9.st.values n = some w →
        w.isVariableLoadingPending = true) ∧
    (∀ j w, stC9.values.get? j = some w →
      ¬ ReachesFrom ctxC9.graph
        (ctxC9.graph (Variable.name
          { name := "A", vtype := .custom,
            isVariableLoadingPending := false })).childVariables w.name →
      outC9.st.values.get? j = some w) ∧
    (∀ j w, stC9.values.get? j = some w →
      ∃ w', outC9.st.values.get? j = some w' ∧
        (w' = w ∨ w' = pendVar w))) :=
  ⟨by decide, rfl, by decide,
    claim9_descendants_marked ctxC9 10 stC9 0 outC9
      { name := "A", vtype := .custom, isVariableLoadingPending := false }
      (by decide) rfl (by decide)⟩

/-- With an invalid time range a single attempt leaves the variable state, the
flag and the old-values map unchanged and spawns nothing (only the stored
reject handles change). -/
theorem attempt_invalidDate (ctx : Ctx) (qc : String) (fetch : FetchOutcome)
    (st : EngineState) (i : Int) (hd : ctx.dateOK = false) :
    (loadSingleVariableDataByIndex ctx qc fetch st i).st.values = st.values ∧
    (loadSingleVariableDataByIndex ctx qc fetch st i).st.isVariablesLoading =
      st.isVariablesLoading ∧
    (loadSingleVariableDataByIndex ctx qc fetch st i).st.oldData =
      st.oldData ∧
    (loadSingleVariableDataByIndex ctx qc fetch st i).spawnedChildren = [] := by
  by_cases h0 : i < 0
  · unfold loadSingleVariableDataByIndex
    rw [if_pos h0]
    exact ⟨rfl, rfl, rfl, rfl⟩
  · cases hv : st.values.get? i.toNat with
    | none =>
      unfold loadSingleVariableDataByIndex
      rw [if_neg h0, hv]
      exact ⟨rfl, rfl, rfl, rfl⟩
    | some v =>
      unfold loadSingleVariableDataByIndex
      rw [if_neg h0, hv]
      dsimp only
      by_cases hp : v.isVariableLoadingPending = false
      · rw [if_pos hp]
        exact ⟨rfl, rfl, rfl, rfl⟩
      · rw [if_neg hp, if_pos (by simp [hd])]
        exact ⟨rfl, rfl, rfl, rfl⟩

/-- With an invalid time range a whole batch of attempts changes nothing of
the variable state, the flag or the old-values map. -/
theorem runAttempts_invalidDate (ctx : Ctx)
    (oracle : Int → String × FetchOutcome) (hd : ctx.dateOK = false) :
    ∀ (l : List Int) (st : EngineState),
    (runAttempts ctx oracle l st).values = st.values ∧
    (runAttempts ctx oracle l st).isVariablesLoading =
      st.isVariablesLoading ∧
    (runAttempts ctx oracle l st).oldData = st.oldData := by
  intro l
  induction l with
  | nil => intro st; exact ⟨rfl, rfl, rfl⟩
  | cons i is ih =>
    intro st
    obtain ⟨h1, h2, h3, -⟩ :=
      attempt_invalidDate ctx (oracle i).1 (oracle i).2 st i hd
    obtain ⟨g1, g2, g3⟩ :=
      ih (loadSingleVariableDataByIndex ctx (oracle i).1 (oracle i).2 st i).st
    exact ⟨g1.trans h1, g2.trans h2, g3.trans h3⟩

/-- With both per-instant `isInvalidDate` checks combining to a failed guard,
the cycle is a no-op: `loadAllVariablesData` returns immediately, and a user
edit through `onVariablesValueUpdated` — which itself performs no date check —
changes no variable's value, options or `isLoading`, moves no variable out of
pending, and leaves `isVariablesLoading` unchanged, because every spawned
attempt hits the date guard. -/
theorem cycle_noop_of_dateGuard (ctx : Ctx)
    (oracle : Int → String × FetchOutcome) (st : EngineState) (fuel : Nat)
    (i : Int) (hd : ctx.dateOK = false) :
    loadAllVariablesData ctx st = ⟨st, []⟩ ∧
    (∀ out, onVariablesValueUpdated ctx fuel st i = some out →
      (∀ j w, st.values.get? j = some w →
        ∃ w', (runAttempts ctx oracle out.attempts out.st).values.get? j =
            some w' ∧
          w'.name = w.name ∧ w'.value = w.value ∧ w'.options = w.options ∧
          w'.isLoading = w.isLoading ∧
          (w.isVariableLoadingPending = true →
            w'.isVariableLoadingPending = true)) ∧
      (runAttempts ctx oracle out.attempts out.st).isVariablesLoading =
        st.isVariablesLoading) := by
  have main : ∀ (out : CycleOut), MarkedLe st.values out.st.values →
      out.st.isVariablesLoading = st.isVariablesLoading →
      (∀ j w, st.values.get? j = some w →
        ∃ w', (runAttempts ctx oracle out.attempts out.st).values.get? j =
            some w' ∧
          w'.name = w.name ∧ w'.value = w.value ∧ w'.options = w.options ∧
          w'.isLoading = w.isLoading ∧
          (w.isVariableLoadingPending = true →
            w'.isVariableLoadingPending = true)) ∧
      (runAttempts ctx oracle out.attempts out.st).isVariablesLoading =
        st.isVariablesLoading := by
    intro out hle hflag
    obtain ⟨h1, h2, h3⟩ := runAttempts_invalidDate ctx oracle hd
      out.attempts out.st
    constructor
    · intro j w hw
      obtain ⟨w', hw', hrel⟩ := markedLe_get? hle j w hw
      refine ⟨w', by rw [h1]; exact hw', ?_⟩
      rcases hrel with rfl | rfl <;> simp [pendVar]
    · rw [h2, hflag]
  constructor
  · unfold loadAllVariablesData
    rw [if_pos (by simp [hd])]
  · intro out hout
    unfold onVariablesValueUpdated at hout
    by_cases h0 : i < 0
    · rw [if_pos h0] at hout
      obtain rfl := Option.some.inj hout
      exact main _ (markedLe_refl _) rfl
    · rw [if_neg h0] at hout
      cases hv : st.values.get? i.toNat with
      | none =>
        rw [hv] at hout
        obtain rfl := Option.some.inj hout
        exact main _ (markedLe_refl _) rfl
      | some v =>
        rw [hv] at hout
        dsimp only at hout
        cases hm : markWs ctx.graph fuel (ctx.graph v.name).childVariables
            st.values with
        | none => rw [hm] at hout; simp at hout
        | some vals' =>
          rw [hm] at hout
          obtain rfl := Option.some.inj hout
          exact main _ (markWs_markedLe ctx.graph fuel _ _ _ hm) rfl

/-- C8 counterexample: the range 100 → 50 is invalid in the claim's own words
(a well-formed `end_time` before a well-formed `start_time`), yet both
per-instant `isInvalidDate` checks pass — a unary check on one instant cannot
see the pair's ordering — so `loadAllVariablesData` proceeds: it marks the
variables pending and spawns attempts, and the spawned attempt for the pending
variable `V` runs to commit, moving `V` OUT of Pending (and resolving its
value from the fetched options).  This refutes the claim that the whole cycle
is a no-op and that no variable transitions out of Pending whenever the time
range is invalid in its sense. -/
theorem claim8_counterexample :
    timeRangeInvalidClaim trC8rev = true ∧
    stC8rev.values.get? 0 = some
      { name := "V", vtype := .queryValues, isVariableLoadingPending := true,
        queryDataField := "f" } ∧
    (runAttempts (ctxOfTimeRange trC8rev gC8rev) oracleC8rev
        (loadAllVariablesData (ctxOfTimeRange trC8rev gC8rev) stC8rev).attempts
        (loadAllVariablesData (ctxOfTimeRange trC8rev gC8rev) stC8rev).st
      ).values.get? 0 = some
      { name := "V", vtype := .queryValues,
        value := .scalar (some "v1"),
        options := [⟨"v1", "v1", false⟩], isLoading := false,
        isVariableLoadingPending := false, queryDataField := "f" } := by
  exact ⟨by decide, by decide, by decide⟩

/-- C8 (amended): if either time-range instant is flagged by the per-instant
`isInvalidDate` check (malformed or missing) at the moment
`loadAllVariablesData` or `onVariablesValueUpdated` is invoked, the whole
cycle is a no-op: `loadAllVariablesData` returns before touching anything; a
user edit changes no variable's value, options or `isLoading`, moves no
variable out of Pending (pending can only be raised, by the descendant
marking), and leaves `isVariablesLoading` unchanged — in particular it stays
`true` when it was `true`.  A well-formed range with `end_time` before
`start_time` is NOT flagged by the per-instant guard and the cycle proceeds
(see the counterexample). -/
theorem claim8_amended (tr : TimeRange) (g : String → DepNode)
    (oracle : Int → String × FetchOutcome) (st : EngineState) (fuel : Nat)
    (i : Int)
    (hd : (isInvalidDate tr.startTime || isInvalidDate tr.endTime) = true) :
    loadAllVariablesData (ctxOfTimeRange tr g) st = ⟨st, []⟩ ∧
    (∀ out, onVariablesValueUpdated (ctxOfTimeRange tr g) fuel st i =
        some out →
      (∀ j w, st.values.get? j = some w →
        ∃ w', (runAttempts (ctxOfTimeRange tr g) oracle out.attempts
            out.st).values.get? j = some w' ∧
          w'.name = w.name ∧ w'.value = w.value ∧ w'.options = w.options ∧
          w'.isLoading = w.isLoading ∧
          (w.isVariableLoadingPending = true →
            w'.isVariableLoadingPending = true)) ∧
      (runAttempts (ctxOfTimeRange tr g) oracle out.attempts
          out.st).isVariablesLoading = st.isVariablesLoading) := by
  have hdk : (ctxOfTimeRange tr g).dateOK = false := by
    cases h1 : isInvalidDate tr.startTime <;>
      cases h2 : isInvalidDate tr.endTime <;>
      simp_all [ctxOfTimeRange, Ctx.dateOK]
  exact cycle_noop_of_dateGuard (ctxOfTimeRange tr g) oracle st fuel i hdk

/-- C8 witness: a missing end instant (flagged by the per-instant check) with
a resolved parent `A` and pending child `B`: both entry points leave the
state alone (the flag stays at its prior `true`). -/
theorem claim8_amended_witness :
    (isInvalidDate trC8miss.startTime || isInvalidDate trC8miss.endTime) =
      true ∧
    (loadAllVariablesData (ctxOfTimeRange trC8miss ctxC8.graph) stC8 =
        ⟨stC8, []⟩ ∧
      (∀ out, onVariablesValueUpdated (ctxOfTimeRange trC8miss ctxC8.graph) 5
          stC8 0 = some out →
        (∀ j w, stC8.values.get? j = some w →
          ∃ w', (runAttempts (ctxOfTimeRange trC8miss ctxC8.graph) oracleC8
              out.attempts out.st).values.get? j = some w' ∧
            w'.name = w.name ∧ w'.value = w.value ∧ w'.options = w.options ∧
            w'.isLoading = w.isLoading ∧
            (w.isVariableLoadingPending = true →
              w'.isVariableLoadingPending = true)) ∧
        (runAttempts (ctxOfTimeRange trC8miss ctxC8.graph) oracleC8
            out.attempts out.st).isVariablesLoading =
          stC8.isVariablesLoading)) :=
  ⟨by decide,
    claim8_amended trC8miss ctxC8.graph oracleC8 stC8 5 0 (by decide)⟩

end VarSelector
